import Mathlib

/-!
Verification of the response correlation and forwarding engine of r3proxy
(src/src/nc_response.c), a twemproxy-style proxy. The C code is shallowly
embedded: messages live in an id-indexed store (Nat → Msg), the intrusive
TAILQ queues become lists of message ids, and each C function becomes a pure
Lean function from state to state. External collaborators that live in other
files of the repository (req_done, req_error, req_put from nc_request.c,
message allocation) are modelled from the spec and marked as such in their
doc comments.
-/

namespace R3Proxy

/-- Error code used by the stray-response path (errno EINVAL in the source). -/
def EINVAL : Nat := 22

/-- Error code used to model a failed message allocation (errno ENOMEM). -/
def ENOMEM : Nat := 12

/-- Cap of the slow-log latency switch, from the source:
#define MAX_TIMEOUT_MS 600000. -/
def MAX_TIMEOUT_MS : Int := 600000

/-- One parsed protocol unit (struct msg). Fields kept from the source where
they matter to the claims: request flag, fragment id, symmetric peer link
(stored as the peer message id), done/swallow/error flags, the sticky errno
value err, byte length mlen, and the slow-log timestamps. frag_group models
the fragment bookkeeping of the source (frag_owner/frag_seq): the ids of the
whole sibling group, fixed when the request was split. pre_rsp_forward models
the optional protocol hook on a response: none means no hook, some b means
the hook is present and reports success b. error_synth marks a response built
by msg_get_error. -/
structure Msg where
  request : Bool := false
  frag_id : Nat := 0
  frag_group : List Nat := []
  peer : Option Nat := none
  done : Bool := false
  swallow : Bool := false
  error : Bool := false
  err : Nat := 0
  mlen : Nat := 0
  slowlog_stime : Int := 0
  slowlog_etime : Int := 0
  pre_rsp_forward : Option Bool := none
  error_synth : Bool := false
deriving DecidableEq

/-- A backend-facing connection (struct conn with client == false): its
outstanding queue omsg_q of request ids, the partially received response
rmsg, and the eof/done/err flags. -/
structure ServConn where
  omsg_q : List Nat := []
  rmsg : Option Nat := none
  eof : Bool := false
  done : Bool := false
  err : Nat := 0
deriving DecidableEq

/-- A client-facing connection (struct conn with client == true): its pending
queue omsg_q of request ids, the response currently being sent smsg, the
eof/done/err flags, and out_active for the event-loop write registration
(event_add_out / event_del_out). -/
structure ClientConn where
  omsg_q : List Nat := []
  smsg : Option Nat := none
  eof : Bool := false
  done : Bool := false
  err : Nat := 0
  out_active : Bool := false
deriving DecidableEq

/-- The six cumulative slow-request counters of one locality class
(request_gt_10ms .. request_gt_500ms). -/
structure SlowCounters where
  gt10 : Nat := 0
  gt20 : Nat := 0
  gt50 : Nat := 0
  gt100 : Nat := 0
  gt200 : Nat := 0
  gt500 : Nat := 0
deriving DecidableEq

/-- A backend server (struct server); only the locality flag matters here. -/
structure Server where
  local_idc : Nat := 0
deriving DecidableEq

/-- One structured slow-log record (the numeric fields of the log_slow line;
the address strings and the key text come from external lookups). -/
structure SlowRecord where
  req_id : Nat
  cost : Int
  frag_id : Nat
  req_len : Nat
  rsp_len : Nat
deriving DecidableEq

/-- The server pool (struct server_pool) together with the stats counters the
embedded functions touch. responses and response_bytes stand for the
per-server stats of rsp_forward_stats; forward_error is the pool counter
incremented on the error-synthesis path of rsp_send_next. -/
structure ServerPool where
  slowlog : Bool := false
  slowlog_slower_than : Int := 0
  xstats : SlowCounters := {}
  lstats : SlowCounters := {}
  slow_records : List SlowRecord := []
  responses : Nat := 0
  response_bytes : Nat := 0
  forward_error : Nat := 0
deriving DecidableEq

/-- The message store: every message id maps to a message value. -/
def setMsg (msgs : Nat → Msg) (i : Nat) (m : Msg) : Nat → Msg :=
  fun j => if j = i then m else msgs j

/-- Global state used by the client-side egress path: the message store, the
next fresh message id for allocation, the client connection under study, the
pool stats, and the log of released message ids (in release order). -/
structure SysState where
  msgs : Nat → Msg
  next_id : Nat := 0
  cconn : ClientConn := {}
  sp : ServerPool := {}
  freed : List Nat := []

/-- TAILQ_NEXT on a queue of ids: the element after the first occurrence of
i, if any. -/
def listNext : List Nat → Nat → Option Nat
  | [], _ => none
  | a :: rest, i => if a = i then rest.head? else listNext rest i

/-- The suffix of the queue strictly after the first occurrence of i
(the chain of TAILQ_NEXT steps starting at i). -/
def suffixAfter : List Nat → Nat → List Nat
  | [], _ => []
  | a :: rest, i => if a = i then rest else suffixAfter rest i

/-- msg_empty from the source: a zero-length message. -/
def msg_empty (m : Msg) : Bool := m.mlen == 0

/-- Modelled from the spec: req_done (nc_request.c, not under src/). A
request is done once a response has been associated; for a fragment group,
the group is fully resolved (every sibling done) before the logical client
answer is sent. -/
def req_done (msgs : Nat → Msg) (i : Nat) : Bool :=
  if (msgs i).frag_id = 0 then (msgs i).done
  else (msgs i).done && (msgs i).frag_group.all (fun j => (msgs j).done)

/-- Modelled from the spec: req_error (nc_request.c, not under src/). The
error flag, set by an external timeout/retry collaborator, is the only
cancellation signal; a fragmented request is errored when any sibling of its
group is errored. -/
def req_error (msgs : Nat → Msg) (i : Nat) : Bool :=
  if (msgs i).error then true
  else if (msgs i).frag_id = 0 then false
  else (msgs i).frag_group.any (fun j => (msgs j).error)

/-- Modelled from the spec: req_put (nc_request.c, not under src/). A peer
link, once established, is torn down atomically on both sides before either
side is released; releasing a request first unlinks and releases its peer
response, then releases the request itself. Returns the new store and the
ids released, in release order. -/
def req_put (msgs : Nat → Msg) (i : Nat) : (Nat → Msg) × List Nat :=
  match (msgs i).peer with
  | some p =>
    let m1 := setMsg msgs i { msgs i with peer := none }
    let m2 := setMsg m1 p { m1 p with peer := none }
    (m2, [p, i])
  | none => (msgs, [i])

/-- req_put lifted to the egress state: the released ids are appended to the
release log. -/
def req_put_state (st : SysState) (i : Nat) : SysState :=
  let r := req_put st.msgs i
  { st with msgs := r.1, freed := st.freed ++ r.2 }

/-- Result of rsp_recv_next: the message to continue receiving into (if
any), the updated connection, the store, and the ids released. -/
structure RecvOut where
  rsp : Option Nat
  conn : ServConn
  msgs : Nat → Msg
  freed : List Nat

/-- rsp_recv_next from the source. On eof, a partially received response is
discarded (released) and the connection is marked done; otherwise the
buffered rmsg is returned, or a fresh response is allocated when alloc is
set. allocRes models the outcome of rsp_get/msg_get: none is an allocation
failure (conn.err takes the errno), some f allocates fresh id f. -/
def rsp_recv_next (sc : ServConn) (msgs : Nat → Msg) (alloc : Bool)
    (allocRes : Option Nat) : RecvOut :=
  if sc.eof then
    match sc.rmsg with
    | some m => ⟨none, { sc with rmsg := none, done := true }, msgs, [m]⟩
    | none => ⟨none, { sc with done := true }, msgs, []⟩
  else
    match sc.rmsg with
    | some m => ⟨some m, sc, msgs, []⟩
    | none =>
      if alloc = false then ⟨none, sc, msgs, []⟩
      else
        match allocRes with
        | none => ⟨none, { sc with err := ENOMEM }, msgs, []⟩
        | some f => ⟨some f, { sc with rmsg := some f },
                     setMsg msgs f { request := false }, []⟩

/-- Result of rsp_filter: whether the response was dropped, the updated
connection, the store, and the ids released in release order. -/
structure FilterOut where
  drop : Bool
  conn : ServConn
  msgs : Nat → Msg
  freed : List Nat

/-- rsp_filter from the source, applied to response id i arriving on backend
connection sc. Empty responses are dropped; a non-empty response with no
outstanding request is a stray: it is dropped and the connection is marked
err = EINVAL, done. A head request with the swallow flag consumes the
response: the head is dequeued, marked done, and both are released. The
conn->swallow_msg protocol hook is external and opaque, so it has no effect
on this state. -/
def rsp_filter (sc : ServConn) (msgs : Nat → Msg) (i : Nat) : FilterOut :=
  if msg_empty (msgs i) then
    ⟨true, sc, msgs, [i]⟩
  else
    match sc.omsg_q with
    | [] => ⟨true, { sc with err := EINVAL, done := true }, msgs, [i]⟩
    | p :: rest =>
      if (msgs p).swallow then
        let m1 := setMsg msgs p { msgs p with done := true }
        let r := req_put m1 p
        ⟨true, { sc with omsg_q := rest }, r.1, i :: r.2⟩
      else
        ⟨false, sc, msgs, []⟩

/-- The fall-through switch of check_out_slowlog: GCC case ranges
501 ... MAX_TIMEOUT_MS down to 11 ... 20, each case falling through to all
the cases below it, so a matching cost increments its own counter and every
smaller-threshold counter; a cost outside every range (including any cost
above MAX_TIMEOUT_MS) hits default and increments nothing. -/
def slow_switch (cost : Int) (c : SlowCounters) : SlowCounters :=
  if 501 ≤ cost ∧ cost ≤ MAX_TIMEOUT_MS then
    { c with gt500 := c.gt500 + 1, gt200 := c.gt200 + 1, gt100 := c.gt100 + 1,
             gt50 := c.gt50 + 1, gt20 := c.gt20 + 1, gt10 := c.gt10 + 1 }
  else if 201 ≤ cost ∧ cost ≤ 500 then
    { c with gt200 := c.gt200 + 1, gt100 := c.gt100 + 1,
             gt50 := c.gt50 + 1, gt20 := c.gt20 + 1, gt10 := c.gt10 + 1 }
  else if 101 ≤ cost ∧ cost ≤ 200 then
    { c with gt100 := c.gt100 + 1, gt50 := c.gt50 + 1, gt20 := c.gt20 + 1,
             gt10 := c.gt10 + 1 }
  else if 51 ≤ cost ∧ cost ≤ 100 then
    { c with gt50 := c.gt50 + 1, gt20 := c.gt20 + 1, gt10 := c.gt10 + 1 }
  else if 21 ≤ cost ∧ cost ≤ 50 then
    { c with gt20 := c.gt20 + 1, gt10 := c.gt10 + 1 }
  else if 11 ≤ cost ∧ cost ≤ 20 then
    { c with gt10 := c.gt10 + 1 }
  else c

/-- check_out_slowlog from the source, for the request msgs i whose peer
response is already linked. server is the owner of the backend connection of
the peer response; in the source both s_conn and s_conn->owner are null
checked before touching the counters, which the single option collapses.
cost below the pool threshold stops before the structured record; otherwise
one record is appended (host strings and key extraction are external
lookups and are not part of this state). -/
def check_out_slowlog (sp : ServerPool) (msgs : Nat → Msg)
    (server : Option Server) (i : Nat) : ServerPool :=
  let msg := msgs i
  let cost := msg.slowlog_etime - msg.slowlog_stime
  let pmsg := msgs (msg.peer.getD 0)
  let sp1 :=
    match server with
    | some srv =>
      if srv.local_idc = 0 then { sp with xstats := slow_switch cost sp.xstats }
      else { sp with lstats := slow_switch cost sp.lstats }
    | none => sp
  if cost < sp.slowlog_slower_than then sp1
  else { sp1 with slow_records := sp1.slow_records ++ [⟨i, cost, msg.frag_id, msg.mlen, pmsg.mlen⟩] }

/-- rsp_forward from the source: response i arrived on backend connection
sc. The head request of the backend outstanding queue is dequeued and linked
to the response on both sides; if the protocol pre_rsp_forward hook fails
the function aborts there. Otherwise the request is marked done; when the
pool has slowlog enabled and the clock worked (now is not negative) the
depart timestamp is set and check_out_slowlog runs. pre_coalesce and
server_ok are external hooks with no effect on this state. Finally, if the
request at the head of the client pending queue is fully done the client
connection is registered for write readiness, and the response stats are
bumped. The source asserts the backend queue is non-empty; the empty case
is therefore modelled as a no-op. -/
def rsp_forward (now : Int) (server : Option Server) (sc : ServConn)
    (st : SysState) (i : Nat) : ServConn × SysState :=
  let msgsize := (st.msgs i).mlen
  match sc.omsg_q with
  | [] => (sc, st)
  | p :: rest =>
    let sc1 := { sc with omsg_q := rest }
    let m1 := setMsg st.msgs p { st.msgs p with peer := some i }
    let m2 := setMsg m1 i { m1 i with peer := some p }
    let st1 := { st with msgs := m2 }
    if (st1.msgs i).pre_rsp_forward = some false then
      (sc1, st1)
    else
      let st2 := { st1 with msgs := setMsg st1.msgs p { st1.msgs p with done := true } }
      let st3 :=
        if st2.sp.slowlog then
          if now < 0 then st2
          else
            let mm := setMsg st2.msgs p { st2.msgs p with slowlog_etime := now }
            let stt := { st2 with msgs := mm }
            { stt with sp := check_out_slowlog stt.sp stt.msgs server p }
        else st2
      let st4 :=
        match st3.cconn.omsg_q.head? with
        | some h =>
          if req_done st3.msgs h then
            { st3 with cconn := { st3.cconn with out_active := true } }
          else st3
        | none => st3
      let sp1 := { st4.sp with responses := st4.sp.responses + 1 }
      let sp2 := { sp1 with response_bytes := sp1.response_bytes + msgsize }
      (sc1, { st4 with sp := sp2 })

/-- The sibling walk of rsp_make_error: the C loop starts at
TAILQ_NEXT(msg) and, while the current request matches the fragment id,
saves its successor, dequeues it from the client pending queue, remembers
the first non-zero err seen, releases it with req_put, and moves on.
The list argument is the queue suffix after msg (successors are read before
the dequeue in the source, so walking the snapshot suffix is exact). -/
def frag_error_walk (fid : Nat) : List Nat → SysState → Nat → SysState × Nat
  | [], st, err => (st, err)
  | c :: rest, st, err =>
    if (st.msgs c).frag_id = fid then
      let st1 := { st with cconn := { st.cconn with omsg_q := st.cconn.omsg_q.erase c } }
      let err1 := if err = 0 ∧ (st1.msgs c).err ≠ 0 then (st1.msgs c).err else err
      frag_error_walk fid rest (req_put_state st1 c) err1
    else (st, err)

/-- rsp_make_error from the source, for the errored request msgs i on the
client connection of st. For a fragment (frag_id not 0) the sibling walk
collects the representative error and dequeues and releases the siblings
after i; otherwise the representative error is the err of i itself. An
already linked peer response of i is unlinked on both sides and released.
Finally msg_get_error allocates one synthesized error response carrying the
representative error; allocation is modelled as always succeeding at the
fresh id next_id. Returns the id of the new error response. -/
def rsp_make_error (st : SysState) (i : Nat) : Nat × SysState :=
  let fid := (st.msgs i).frag_id
  let we :=
    if fid ≠ 0 then frag_error_walk fid (suffixAfter st.cconn.omsg_q i) st 0
    else (st, (st.msgs i).err)
  let st1 := we.1
  let err := we.2
  let st2 :=
    match (st1.msgs i).peer with
    | some p =>
      let m1 := setMsg st1.msgs i { st1.msgs i with peer := none }
      let m2 := setMsg m1 p { m1 p with peer := none }
      { st1 with msgs := m2, freed := st1.freed ++ [p] }
    | none => st1
  let mid := st2.next_id
  let mm := setMsg st2.msgs mid { request := false, err := err, error_synth := true }
  (mid, { st2 with msgs := mm, next_id := mid + 1 })

/-- rsp_send_next from the source. If the head of the client pending queue
is missing or not done there is nothing to send: the connection is marked
done when the queue is empty and eof was seen, and write interest is
dropped. Otherwise, when a response is already in flight (smsg), the walk
advances to the request after its peer; a missing or not-done next request
clears smsg and returns nothing. An errored request gets a synthesized
error response (linked on both sides, forward_error bumped); otherwise the
already linked peer response is chosen. The chosen response becomes smsg.
msg_get_error failure and event_del_out failure are not modelled. -/
def rsp_send_next (st : SysState) : Option Nat × SysState :=
  let conn := st.cconn
  match conn.omsg_q.head? with
  | none =>
    let conn1 :=
      if conn.eof then { conn with done := true, out_active := false }
      else { conn with out_active := false }
    (none, { st with cconn := conn1 })
  | some p0 =>
    if req_done st.msgs p0 = false then
      (none, { st with cconn := { conn with out_active := false } })
    else
      let pm : Option Nat :=
        match conn.smsg with
        | none => some p0
        | some m => listNext conn.omsg_q ((st.msgs m).peer.getD 0)
      match pm with
      | none => (none, { st with cconn := { conn with smsg := none } })
      | some p =>
        if req_done st.msgs p = false then
          (none, { st with cconn := { conn with smsg := none } })
        else if req_error st.msgs p then
          let r := rsp_make_error st p
          let mid := r.1
          let st1 := r.2
          let m1 := setMsg st1.msgs mid { st1.msgs mid with peer := some p }
          let m2 := setMsg m1 p { m1 p with peer := some mid }
          let sp1 := { st1.sp with forward_error := st1.sp.forward_error + 1 }
          let cc1 := { st1.cconn with smsg := some mid }
          (some mid, { st1 with msgs := m2, sp := sp1, cconn := cc1 })
        else
          let mid := (st.msgs p).peer.getD 0
          (some mid, { st with cconn := { conn with smsg := some mid } })

/-- rsp_send_done from the source: after response i was fully written (the
caller has already cleared smsg, as the source asserts), the paired request
is dequeued from the client pending queue and released. -/
def rsp_send_done (st : SysState) (i : Nat) : SysState :=
  let p := (st.msgs i).peer.getD 0
  let st1 := { st with cconn := { st.cconn with omsg_q := st.cconn.omsg_q.erase p } }
  req_put_state st1 p

/-- The client-side send loop of the event loop: repeatedly pick the next
response with rsp_send_next; a full write clears smsg and runs
rsp_send_done, then the loop continues. Returns the responses written to
the client, in order. -/
def drain : Nat → SysState → List Nat × SysState
  | 0, st => ([], st)
  | Nat.succ fuel, st =>
    match rsp_send_next st with
    | (none, st1) => ([], st1)
    | (some m, st1) =>
      let st2 := rsp_send_done { st1 with cconn := { st1.cconn with smsg := none } } m
      let r := drain fuel st2
      (m :: r.1, r.2)

/-- Repeated calls of rsp_send_next with nothing happening in between:
returns the list of results and the final state. -/
def send_next_iter : Nat → SysState → List (Option Nat) × SysState
  | 0, st => ([], st)
  | Nat.succ n, st =>
    let r := rsp_send_next st
    let rest := send_next_iter n r.2
    (r.1 :: rest.1, rest.2)

/-- Nothing is ready to send on the client connection: the pending queue is
empty or its head request is not done. -/
def head_not_ready (st : SysState) : Bool :=
  match st.cconn.omsg_q.head? with
  | none => true
  | some h => !req_done st.msgs h

/-- The first non-zero err among the given requests, in queue order
(0 when none is set): the representative error of a fragment group as the
spec words it. -/
def rep_err (msgs : Nat → Msg) : List Nat → Nat
  | [] => 0
  | c :: rest => if (msgs c).err ≠ 0 then (msgs c).err else rep_err msgs rest

/-- The cumulative counter semantics as the spec words it: each counter is
incremented exactly when the cost exceeds its threshold. -/
def bump_if_exceeds (cost : Int) (c : SlowCounters) : SlowCounters :=
  { gt10 := c.gt10 + (if 10 < cost then 1 else 0),
    gt20 := c.gt20 + (if 20 < cost then 1 else 0),
    gt50 := c.gt50 + (if 50 < cost then 1 else 0),
    gt100 := c.gt100 + (if 100 < cost then 1 else 0),
    gt200 := c.gt200 + (if 200 < cost then 1 else 0),
    gt500 := c.gt500 + (if 500 < cost then 1 else 0) }

/-- Symmetry of the peer link: one side is set exactly when the other side
points back. -/
def PeerSym (msgs : Nat → Msg) : Prop :=
  ∀ a b, (msgs a).peer = some b ↔ (msgs b).peer = some a

/-- Concrete message store for the C3 witness: a request with cost
300 - 25 = 275 ms. -/
def c3msgs : Nat → Msg := fun _ => { slowlog_stime := 25, slowlog_etime := 300 }

/-- Concrete message store for the C3 witness extras: cost 5 ms. -/
def c3msgs5 : Nat → Msg := fun _ => { slowlog_stime := 0, slowlog_etime := 5 }

/-- Concrete message store for the C3 witness extras: cost 600 ms. -/
def c3msgs600 : Nat → Msg := fun _ => { slowlog_stime := 0, slowlog_etime := 600 }

/-- Concrete idle client state for the C7 witness: one pending request that
is not done. -/
def c7_state : SysState :=
  { msgs := fun _ => { request := true }, cconn := { omsg_q := [5] } }

/-- Concrete message store for the C5 witness: request 7 carries the
swallow flag, every other id is a non-empty response. -/
def c5msgs : Nat → Msg :=
  fun j => if j = 7 then { request := true, swallow := true } else { mlen := 2 }

/-- Initial state for C1: requests 1, 2, 3 (no fragments) pending on the
client connection in submission order, with backend responses 11, 12, 13
about to complete on three separate backend connections. -/
def c1_init : SysState :=
  { msgs := fun j =>
      if j = 1 then { request := true }
      else if j = 2 then { request := true }
      else if j = 3 then { request := true }
      else if j = 11 then { mlen := 4 }
      else if j = 12 then { mlen := 4 }
      else if j = 13 then { mlen := 4 }
      else {},
    next_id := 100,
    cconn := { omsg_q := [1, 2, 3] } }

/-- One backend completion for C1: response rp.2 arrives on the backend
connection whose outstanding queue holds request rp.1, and rsp_forward
pairs them. -/
def c1_complete (st : SysState) (rp : Nat × Nat) : SysState :=
  (rsp_forward 0 none { omsg_q := [rp.1] } st rp.2).2

/-- The C1 experiment: apply the backend completions in the given order,
then run the client send loop and record the responses written to the
client, in order. -/
def c1_run (l : List (Nat × Nat)) : List Nat :=
  (drain 4 (l.foldl c1_complete c1_init)).1

/-- Concrete state for the C8 witness: an empty store (every peer link
none) with fresh id 5. -/
def c8_state : SysState := { msgs := fun _ => {}, next_id := 5 }

/-- Initial state for the C2 witness: one logical request split into the
fragment group 1, 2, 3 (fragment id 7) pending on the client connection.
Fragments 1 and 3 succeeded (responses 11 and 13 linked); fragment 2 was
flagged errored with err 110 by the external timeout collaborator. The
next fresh message id is 20. -/
def c2_init : SysState :=
  { msgs := fun j =>
      if j = 1 then { request := true, frag_id := 7, frag_group := [1, 2, 3],
                      done := true, peer := some 11 }
      else if j = 2 then { request := true, frag_id := 7, frag_group := [1, 2, 3],
                           done := true, error := true, err := 110 }
      else if j = 3 then { request := true, frag_id := 7, frag_group := [1, 2, 3],
                           done := true, peer := some 13 }
      else if j = 11 then { mlen := 4, peer := some 1 }
      else if j = 13 then { mlen := 4, peer := some 3 }
      else {},
    next_id := 20,
    cconn := { omsg_q := [1, 2, 3] } }

/-- C4: a non-empty response arriving on a backend connection whose
outstanding queue is empty is a stray: it is dropped and released, the
connection is marked err = EINVAL and done = true, and the filter returns
true; the store is untouched, so no request is matched to the response. -/
theorem c4_stray_response (sc : ServConn) (msgs : Nat → Msg) (i : Nat)
    (hne : (msgs i).mlen ≠ 0) (hq : sc.omsg_q = []) :
    rsp_filter sc msgs i =
      ⟨true, { sc with err := EINVAL, done := true }, msgs, [i]⟩ := by
  simp [rsp_filter, msg_empty, hne, hq]

/-- C4 witness: the stray rule at a concrete connection and response. -/
theorem c4_stray_response_witness :
    ((fun _ => ({ mlen := 1 } : Msg)) 0).mlen ≠ 0 ∧ ({} : ServConn).omsg_q = [] ∧
    rsp_filter {} (fun _ => ({ mlen := 1 } : Msg)) 0 =
      ⟨true, { ({} : ServConn) with err := EINVAL, done := true },
       (fun _ => ({ mlen := 1 } : Msg)), [0]⟩ :=
  ⟨by decide, rfl, c4_stray_response {} (fun _ => { mlen := 1 }) 0 (by decide) rfl⟩

/-- C5: a response arriving on a backend connection whose outstanding-queue
head request has the swallow flag is consumed: the filter dequeues the head,
marks it done, releases both the response and the request, and returns true,
so the response is never forwarded. -/
theorem c5_swallow (sc : ServConn) (msgs : Nat → Msg) (i h : Nat)
    (rest : List Nat) (hq : sc.omsg_q = h :: rest)
    (hsw : (msgs h).swallow = true) (hne : (msgs i).mlen ≠ 0) :
    (rsp_filter sc msgs i).drop = true ∧
    (rsp_filter sc msgs i).conn.omsg_q = rest ∧
    ((rsp_filter sc msgs i).msgs h).done = true ∧
    i ∈ (rsp_filter sc msgs i).freed ∧
    h ∈ (rsp_filter sc msgs i).freed := by
  simp only [rsp_filter, msg_empty, hq, hsw]
  have hme : ((msgs i).mlen == 0) = false := by simp [hne]
  rw [hme]
  simp only [Bool.false_eq_true, if_false, if_true]
  rcases hp : (msgs h).peer with _ | p
  · simp [req_put, setMsg, hp]
  · by_cases hph : h = p <;> simp [req_put, setMsg, hp, hph]

/-- C5 witness: the swallow rule at a concrete connection, head request 7
with the swallow flag, and response 0 (the store c5msgs is defined above
the theorems). -/
theorem c5_swallow_witness :
    ({ omsg_q := [7] } : ServConn).omsg_q = 7 :: [] ∧
    (c5msgs 7).swallow = true ∧
    (c5msgs 0).mlen ≠ 0 ∧
    ((rsp_filter { omsg_q := [7] } c5msgs 0).drop = true ∧
     (rsp_filter { omsg_q := [7] } c5msgs 0).conn.omsg_q = [] ∧
     ((rsp_filter { omsg_q := [7] } c5msgs 0).msgs 7).done = true ∧
     0 ∈ (rsp_filter { omsg_q := [7] } c5msgs 0).freed ∧
     7 ∈ (rsp_filter { omsg_q := [7] } c5msgs 0).freed) :=
  ⟨rfl, by decide, by decide,
   c5_swallow { omsg_q := [7] } c5msgs 0 7 [] rfl (by decide) (by decide)⟩

/-- C6: on a backend connection with eof set and a partially received
response pending, rsp_recv_next discards and releases that response, marks
the connection done, and returns none. -/
theorem c6_eof_partial (sc : ServConn) (msgs : Nat → Msg) (m : Nat)
    (alloc : Bool) (allocRes : Option Nat)
    (heof : sc.eof = true) (hr : sc.rmsg = some m) :
    rsp_recv_next sc msgs alloc allocRes =
      ⟨none, { sc with rmsg := none, done := true }, msgs, [m]⟩ := by
  simp [rsp_recv_next, heof, hr]

/-- C6 witness: the eof-with-partial-response rule at a concrete
connection. -/
theorem c6_eof_partial_witness :
    ({ eof := true, rmsg := some 3 } : ServConn).eof = true ∧
    ({ eof := true, rmsg := some 3 } : ServConn).rmsg = some 3 ∧
    rsp_recv_next { eof := true, rmsg := some 3 } (fun _ => {}) true none =
      ⟨none, { ({ eof := true, rmsg := some 3 } : ServConn) with
               rmsg := none, done := true }, (fun _ => {}), [3]⟩ :=
  ⟨rfl, rfl, c6_eof_partial _ _ 3 true none rfl rfl⟩

/-- C9: any backend half-close is fatal: with eof set, rsp_recv_next marks
the connection done and returns none whether or not a partial response was
pending. -/
theorem c9_eof_always_fatal (sc : ServConn) (msgs : Nat → Msg) (alloc : Bool)
    (allocRes : Option Nat) (heof : sc.eof = true) :
    (rsp_recv_next sc msgs alloc allocRes).rsp = none ∧
    (rsp_recv_next sc msgs alloc allocRes).conn.done = true := by
  unfold rsp_recv_next
  rw [heof]
  cases sc.rmsg <;> simp

/-- C9 witness: the eof rule with no partial response pending. -/
theorem c9_eof_always_fatal_witness :
    ({ eof := true } : ServConn).eof = true ∧
    ((rsp_recv_next { eof := true } (fun _ => {}) true none).rsp = none ∧
     (rsp_recv_next { eof := true } (fun _ => {}) true none).conn.done = true) :=
  ⟨rfl, c9_eof_always_fatal { eof := true } (fun _ => {}) true none rfl⟩

/-- C10: the empty-response check precedes the stray check: an empty
response on a backend connection with an empty outstanding queue is dropped
and released with the connection returned unchanged, so neither err nor
done is set. -/
theorem c10_empty_before_stray (sc : ServConn) (msgs : Nat → Msg) (i : Nat)
    (hempty : (msgs i).mlen = 0) (_hq : sc.omsg_q = []) :
    rsp_filter sc msgs i = ⟨true, sc, msgs, [i]⟩ := by
  simp [rsp_filter, msg_empty, hempty]

/-- C10 witness: an empty response on an idle backend connection leaves the
connection untouched. -/
theorem c10_empty_before_stray_witness :
    ((fun _ => ({} : Msg)) 0).mlen = 0 ∧ ({} : ServConn).omsg_q = [] ∧
    rsp_filter {} (fun _ => ({} : Msg)) 0 = ⟨true, {}, (fun _ => {}), [0]⟩ :=
  ⟨rfl, rfl, c10_empty_before_stray {} (fun _ => {}) 0 rfl rfl⟩

/-- The fall-through switch agrees with the cumulative
increment-per-exceeded-threshold reading whenever the cost does not exceed
the MAX_TIMEOUT_MS cap. -/
theorem slow_switch_eq (cost : Int) (hc : cost ≤ MAX_TIMEOUT_MS)
    (c : SlowCounters) : slow_switch cost c = bump_if_exceeds cost c := by
  obtain ⟨g1, g2, g3, g4, g5, g6⟩ := c
  unfold MAX_TIMEOUT_MS at hc
  unfold slow_switch bump_if_exceeds MAX_TIMEOUT_MS
  split_ifs with h1 h2 h3 h4 h5 h6 <;>
    simp only [SlowCounters.mk.injEq, Nat.add_zero] <;>
    refine ⟨?_, ?_, ?_, ?_, ?_, ?_⟩ <;> omega

/-- C3 counterexample: a pair with cost 600001 ms exceeds every threshold,
yet check_out_slowlog increments no counter at all (its switch is capped at
MAX_TIMEOUT_MS), refuting the claim that each counter is incremented
exactly when the cost exceeds its threshold. -/
theorem c3_bucket_cap_cex :
    (({ slowlog_stime := 0, slowlog_etime := 600001 } : Msg).slowlog_etime -
       ({ slowlog_stime := 0, slowlog_etime := 600001 } : Msg).slowlog_stime
       > 500) ∧
    check_out_slowlog {} (fun _ => { slowlog_stime := 0, slowlog_etime := 600001 })
        (some { local_idc := 1 }) 0 =
      { slow_records := [⟨0, 600001, 0, 0, 0⟩] } := by
  constructor
  · decide
  · rfl

/-- C3 (amended): for every recorded pair whose backend is known, provided
the cost is at most MAX_TIMEOUT_MS (600000 ms), each of the six cumulative
counters of the locality class of the backend is incremented exactly when
the cost exceeds its threshold, and the other locality class is left
unchanged. -/
theorem c3_slowlog_buckets (sp : ServerPool) (msgs : Nat → Msg) (srv : Server)
    (i : Nat)
    (hcap : (msgs i).slowlog_etime - (msgs i).slowlog_stime ≤ MAX_TIMEOUT_MS) :
    (check_out_slowlog sp msgs (some srv) i).xstats =
      (if srv.local_idc = 0 then
        bump_if_exceeds ((msgs i).slowlog_etime - (msgs i).slowlog_stime) sp.xstats
       else sp.xstats) ∧
    (check_out_slowlog sp msgs (some srv) i).lstats =
      (if srv.local_idc = 0 then sp.lstats
       else bump_if_exceeds ((msgs i).slowlog_etime - (msgs i).slowlog_stime) sp.lstats) := by
  have hs : ∀ cc, slow_switch ((msgs i).slowlog_etime - (msgs i).slowlog_stime) cc =
      bump_if_exceeds ((msgs i).slowlog_etime - (msgs i).slowlog_stime) cc :=
    fun cc => slow_switch_eq _ hcap cc
  unfold check_out_slowlog
  by_cases hl : srv.local_idc = 0 <;>
    by_cases hc2 : (msgs i).slowlog_etime - (msgs i).slowlog_stime <
        sp.slowlog_slower_than <;>
      simp [hl, hc2, hs]

/-- C3 witness: the amended bucket rule applied at cost 275 ms on a local
backend, together with the three worked examples of the claim: 275 ms bumps
exactly the five smallest thresholds, 5 ms bumps none, 600 ms bumps all
six. -/
theorem c3_slowlog_buckets_witness :
    ((c3msgs 0).slowlog_etime - (c3msgs 0).slowlog_stime ≤ MAX_TIMEOUT_MS) ∧
    ((check_out_slowlog {} c3msgs (some { local_idc := 1 }) 0).xstats =
      (if ({ local_idc := 1 } : Server).local_idc = 0 then
        bump_if_exceeds ((c3msgs 0).slowlog_etime - (c3msgs 0).slowlog_stime)
          ({} : ServerPool).xstats
       else ({} : ServerPool).xstats) ∧
     (check_out_slowlog {} c3msgs (some { local_idc := 1 }) 0).lstats =
      (if ({ local_idc := 1 } : Server).local_idc = 0 then ({} : ServerPool).lstats
       else bump_if_exceeds ((c3msgs 0).slowlog_etime - (c3msgs 0).slowlog_stime)
         ({} : ServerPool).lstats)) ∧
    (check_out_slowlog {} c3msgs (some { local_idc := 1 }) 0).lstats =
      { gt10 := 1, gt20 := 1, gt50 := 1, gt100 := 1, gt200 := 1, gt500 := 0 } ∧
    (check_out_slowlog {} c3msgs5 (some { local_idc := 1 }) 0).lstats =
      { gt10 := 0, gt20 := 0, gt50 := 0, gt100 := 0, gt200 := 0, gt500 := 0 } ∧
    (check_out_slowlog {} c3msgs600 (some { local_idc := 1 }) 0).lstats =
      { gt10 := 1, gt20 := 1, gt50 := 1, gt100 := 1, gt200 := 1, gt500 := 1 } :=
  ⟨by decide, c3_slowlog_buckets {} c3msgs { local_idc := 1 } 0 (by decide),
   by decide, by decide, by decide⟩

/-- An idle rsp_send_next call (pending-queue head missing or not done)
returns none and leaves the queue and the store unchanged. -/
theorem rsp_send_next_idle (st : SysState) (h : head_not_ready st = true) :
    (rsp_send_next st).1 = none ∧
    (rsp_send_next st).2.cconn.omsg_q = st.cconn.omsg_q ∧
    (rsp_send_next st).2.msgs = st.msgs := by
  unfold head_not_ready at h
  cases hh : st.cconn.omsg_q.head? with
  | none =>
    by_cases he : st.cconn.eof = true <;> simp [rsp_send_next, hh, he]
  | some p0 =>
    rw [hh] at h
    simp only [Bool.not_eq_eq_eq_not, Bool.not_true] at h
    simp [rsp_send_next, hh, h]

/-- C7: repeatedly calling rsp_send_next on a client connection on which
nothing is ready to send (head of the pending queue missing or not done)
returns none on every call and never dequeues a request: the pending queue
is unchanged after any number of calls. -/
theorem c7_idempotent_drain (n : Nat) (st : SysState)
    (h : head_not_ready st = true) :
    (send_next_iter n st).1 = List.replicate n none ∧
    (send_next_iter n st).2.cconn.omsg_q = st.cconn.omsg_q := by
  induction n generalizing st with
  | zero => simp [send_next_iter]
  | succ n ih =>
    obtain ⟨h1, h2, h3⟩ := rsp_send_next_idle st h
    have hnr : head_not_ready (rsp_send_next st).2 = true := by
      unfold head_not_ready at h ⊢
      rw [h2, h3]
      exact h
    obtain ⟨ih1, ih2⟩ := ih (rsp_send_next st).2 hnr
    simp only [send_next_iter, List.replicate_succ]
    exact ⟨by rw [ih1, h1], by rw [ih2, h2]⟩

/-- C7 witness: three idle calls on a concrete connection with one pending
not-done request return none three times and leave the queue unchanged. -/
theorem c7_idempotent_drain_witness :
    head_not_ready c7_state = true ∧
    ((send_next_iter 3 c7_state).1 = List.replicate 3 none ∧
     (send_next_iter 3 c7_state).2.cconn.omsg_q = c7_state.cconn.omsg_q) :=
  ⟨by decide, c7_idempotent_drain 3 c7_state (by decide)⟩

/-- A list permuting the three C1 completions is one of the six concrete
orders. -/
theorem c1_perm_cases {l : List (Nat × Nat)}
    (h : l.Perm [(1, 11), (2, 12), (3, 13)]) :
    l = [(1, 11), (2, 12), (3, 13)] ∨ l = [(1, 11), (3, 13), (2, 12)] ∨
    l = [(2, 12), (1, 11), (3, 13)] ∨ l = [(2, 12), (3, 13), (1, 11)] ∨
    l = [(3, 13), (1, 11), (2, 12)] ∨ l = [(3, 13), (2, 12), (1, 11)] := by
  have hlen := h.length_eq
  rcases l with _ | ⟨x, _ | ⟨y, _ | ⟨z, _ | ⟨w, t⟩⟩⟩⟩ <;> simp at hlen
  have hx : x ∈ [((1 : Nat), (11 : Nat)), (2, 12), (3, 13)] := h.subset (by simp)
  have hy : y ∈ [((1 : Nat), (11 : Nat)), (2, 12), (3, 13)] := h.subset (by simp)
  have hz : z ∈ [((1 : Nat), (11 : Nat)), (2, 12), (3, 13)] := h.subset (by simp)
  simp only [List.mem_cons, List.mem_singleton, List.not_mem_nil, or_false] at hx hy hz
  rcases hx with hx | hx | hx <;> rcases hy with hy | hy | hy <;>
    rcases hz with hz | hz | hz <;> subst hx <;> subst hy <;> subst hz <;>
    first
      | decide
      | exact absurd h (by decide)

/-- C1: responses are emitted to the client strictly in request submission
order: for requests 1, 2, 3 submitted in that order (no fragments), the
client send loop writes the paired responses 11, 12, 13 in that order for
every order in which the backend completions arrived. -/
theorem c1_order (l : List (Nat × Nat))
    (h : l.Perm [(1, 11), (2, 12), (3, 13)]) :
    c1_run l = [11, 12, 13] := by
  rcases c1_perm_cases h with h1 | h1 | h1 | h1 | h1 | h1 <;> subst h1 <;> decide

/-- C1 witness: the completions arriving in the order 2, 3, 1 still produce
the client-order output 11, 12, 13. -/
theorem c1_order_witness :
    ([((2 : Nat), (12 : Nat)), (3, 13), (1, 11)]).Perm
      [(1, 11), (2, 12), (3, 13)] ∧
    c1_run [(2, 12), (3, 13), (1, 11)] = [11, 12, 13] :=
  ⟨by decide, c1_order [(2, 12), (3, 13), (1, 11)] (by decide)⟩

/-- req_put only touches peer links: the frag_id and err of every message
are unchanged. -/
theorem req_put_msgs_keep (m : Nat → Msg) (c j : Nat) :
    ((req_put m c).1 j).frag_id = (m j).frag_id ∧
    ((req_put m c).1 j).err = (m j).err := by
  unfold req_put
  rcases hp : (m c).peer with _ | p
  · exact ⟨rfl, rfl⟩
  · simp only [hp]
    by_cases h1 : j = p <;> by_cases h2 : j = c <;> by_cases h3 : p = c <;>
      simp_all [setMsg]

/-- req_put releases the request it was given. -/
theorem req_put_freed_self (m : Nat → Msg) (c : Nat) : c ∈ (req_put m c).2 := by
  unfold req_put
  rcases (m c).peer <;> simp

/-- The representative-error scan is unchanged by a req_put, which never
touches an err field. -/
theorem rep_err_keep (m : Nat → Msg) (c : Nat) (l : List Nat) :
    rep_err ((req_put m c).1) l = rep_err m l := by
  induction l with
  | nil => rfl
  | cons a t ih => simp [rep_err, (req_put_msgs_keep m c a).2, ih]

/-- In a duplicate-free queue, an element cannot also occur before its own
position. -/
theorem not_mem_left_of_nodup_append {a : Nat} {l1 l2 : List Nat}
    (h : (l1 ++ a :: l2).Nodup) : a ∉ l1 := by
  rw [List.nodup_append] at h
  intro hmem
  exact h.2.2 hmem (List.mem_cons_self a l2)

/-- The queue suffix after an element that does not occur earlier. -/
theorem suffixAfter_of_append {i : Nat} {pre l : List Nat} (h : i ∉ pre) :
    suffixAfter (pre ++ i :: l) i = l := by
  induction pre with
  | nil => simp [suffixAfter]
  | cons a t ih =>
    have ha : a ≠ i := by
      intro he
      exact h (he ▸ List.mem_cons_self a t)
    simp only [List.cons_append, suffixAfter, ha, if_false]
    exact ih (fun hm => h (List.mem_cons_of_mem a hm))

/-- The sibling walk of rsp_make_error, specified: started on the queue
suffix sibs ++ rest after i, where every member of sibs carries the
fragment id and rest does not start with one, it removes exactly sibs from
the client queue, releases every member of sibs, leaves next_id and the
earlier release log alone, and returns the first non-zero err of sibs
(err0 if that was already non-zero). -/
theorem frag_error_walk_spec (fid : Nat) (sibs : List Nat) :
    ∀ (st : SysState) (pre rest : List Nat) (i err0 : Nat),
    st.cconn.omsg_q = pre ++ i :: (sibs ++ rest) →
    st.cconn.omsg_q.Nodup →
    (∀ j ∈ sibs, (st.msgs j).frag_id = fid) →
    (∀ r, rest.head? = some r → (st.msgs r).frag_id ≠ fid) →
    (frag_error_walk fid (sibs ++ rest) st err0).1.cconn.omsg_q = pre ++ i :: rest ∧
    (frag_error_walk fid (sibs ++ rest) st err0).1.next_id = st.next_id ∧
    (∀ x ∈ st.freed, x ∈ (frag_error_walk fid (sibs ++ rest) st err0).1.freed) ∧
    (∀ j ∈ sibs, j ∈ (frag_error_walk fid (sibs ++ rest) st err0).1.freed) ∧
    (frag_error_walk fid (sibs ++ rest) st err0).2 =
      (if err0 ≠ 0 then err0 else rep_err st.msgs sibs) := by
  induction sibs with
  | nil =>
    intro st pre rest i err0 hq hnd hsibs hrest
    have hstop : (frag_error_walk fid ([] ++ rest) st err0) = (st, err0) := by
      cases rest with
      | nil => rfl
      | cons r t =>
        have hr := hrest r rfl
        simp [frag_error_walk, hr]
    rw [hstop]
    refine ⟨hq, rfl, fun x hx => hx, by simp, ?_⟩
    by_cases h0 : err0 = 0 <;> simp [h0, rep_err]
  | cons c sibs ih =>
    intro st pre rest i err0 hq hnd hsibs hrest
    have hc : (st.msgs c).frag_id = fid := hsibs c (List.mem_cons_self c sibs)
    have hcnotpre : c ∉ pre ++ [i] := by
      have heq : (pre ++ [i]) ++ c :: (sibs ++ rest) = pre ++ i :: (c :: sibs ++ rest) := by
        simp
      have h2 : ((pre ++ [i]) ++ c :: (sibs ++ rest)).Nodup := by
        rw [heq, ← hq]
        exact hnd
      exact not_mem_left_of_nodup_append h2
    have hcp : c ∉ pre := fun hm => hcnotpre (List.mem_append_left _ hm)
    have hci : i ≠ c := by
      intro he
      exact hcnotpre (he ▸ List.mem_append_right _ (List.mem_cons_self i []))
    have herase : st.cconn.omsg_q.erase c = pre ++ i :: (sibs ++ rest) := by
      rw [hq]
      simp only [List.cons_append]
      rw [List.erase_append_right _ hcp,
          List.erase_cons_tail (not_beq_of_ne hci), List.erase_cons_head]
    have hstep : frag_error_walk fid ((c :: sibs) ++ rest) st err0 =
        frag_error_walk fid (sibs ++ rest)
          (req_put_state { st with cconn := { st.cconn with omsg_q := st.cconn.omsg_q.erase c } } c)
          (if err0 = 0 ∧ (st.msgs c).err ≠ 0 then (st.msgs c).err else err0) := by
      simp [frag_error_walk, hc]
    set st1 : SysState :=
      { st with cconn := { st.cconn with omsg_q := st.cconn.omsg_q.erase c } } with hst1
    set st2 : SysState := req_put_state st1 c with hst2
    have hq2 : st2.cconn.omsg_q = pre ++ i :: (sibs ++ rest) := by
      simp [hst2, req_put_state, hst1, herase]
    have hnd2 : st2.cconn.omsg_q.Nodup := by
      rw [hq2, ← herase]
      exact hnd.erase c
    have hmk : ∀ j, ((st2.msgs j).frag_id = (st.msgs j).frag_id ∧
        (st2.msgs j).err = (st.msgs j).err) := by
      intro j
      simp only [hst2, req_put_state, hst1]
      exact req_put_msgs_keep st.msgs c j
    have hsibs2 : ∀ j ∈ sibs, (st2.msgs j).frag_id = fid := by
      intro j hj
      rw [(hmk j).1]
      exact hsibs j (List.mem_cons_of_mem c hj)
    have hrest2 : ∀ r, rest.head? = some r → (st2.msgs r).frag_id ≠ fid := by
      intro r hr
      rw [(hmk r).1]
      exact hrest r hr
    obtain ⟨ihq, ihn, ihmono, ihmem, iherr⟩ :=
      ih st2 pre rest i (if err0 = 0 ∧ (st.msgs c).err ≠ 0 then (st.msgs c).err else err0)
        hq2 hnd2 hsibs2 hrest2
    have hfreed2 : ∀ x ∈ st.freed, x ∈ st2.freed := by
      intro x hx
      simp only [hst2, req_put_state, hst1]
      exact List.mem_append_left _ hx
    have hcin2 : c ∈ st2.freed := by
      simp only [hst2, req_put_state, hst1]
      exact List.mem_append_right _ (req_put_freed_self st.msgs c)
    have hrep2 : rep_err st2.msgs sibs = rep_err st.msgs sibs := by
      simp only [hst2, req_put_state, hst1]
      exact rep_err_keep st.msgs c sibs
    rw [hstep]
    refine ⟨ihq, by rw [ihn]; simp [hst2, req_put_state, hst1], ?_, ?_, ?_⟩
    · intro x hx
      exact ihmono x (hfreed2 x hx)
    · intro j hj
      rcases List.mem_cons.mp hj with hj | hj
      · subst hj
        exact ihmono j hcin2
      · exact ihmem j hj
    · rw [iherr, hrep2]
      by_cases h0 : err0 = 0 <;> by_cases hce : (st.msgs c).err = 0 <;>
        simp [h0, hce, rep_err]

/-- C2: for an errored fragmented request i (frag_id not 0) whose sibling
run follows it in the client pending queue, rsp_make_error dequeues every
sibling from the queue and releases it, takes the first non-zero err among
them as the representative error, and returns exactly one synthesized
error response (a fresh non-request message with error_synth set) carrying
that error. -/
theorem c2_make_error_frag (st : SysState) (pre sibs rest : List Nat) (i : Nat)
    (hq : st.cconn.omsg_q = pre ++ i :: (sibs ++ rest))
    (hnd : st.cconn.omsg_q.Nodup)
    (hfid0 : (st.msgs i).frag_id ≠ 0)
    (hsibs : ∀ j ∈ sibs, (st.msgs j).frag_id = (st.msgs i).frag_id)
    (hrest : ∀ r, rest.head? = some r →
      (st.msgs r).frag_id ≠ (st.msgs i).frag_id) :
    (rsp_make_error st i).1 = st.next_id ∧
    (rsp_make_error st i).2.cconn.omsg_q = pre ++ i :: rest ∧
    (∀ j ∈ sibs, j ∈ (rsp_make_error st i).2.freed) ∧
    ((rsp_make_error st i).2.msgs (rsp_make_error st i).1).err =
      rep_err st.msgs sibs ∧
    ((rsp_make_error st i).2.msgs (rsp_make_error st i).1).error_synth = true ∧
    ((rsp_make_error st i).2.msgs (rsp_make_error st i).1).request = false ∧
    (rsp_make_error st i).2.next_id = st.next_id + 1 := by
  have hinotpre : i ∉ pre := not_mem_left_of_nodup_append (hq ▸ hnd)
  have hsuf : suffixAfter st.cconn.omsg_q i = sibs ++ rest := by
    rw [hq]
    exact suffixAfter_of_append hinotpre
  obtain ⟨w1, w2, w3, w4, w5⟩ :=
    frag_error_walk_spec (st.msgs i).frag_id sibs st pre rest i 0 hq hnd hsibs hrest
  have hW2 : (frag_error_walk (st.msgs i).frag_id (sibs ++ rest) st 0).2 =
      rep_err st.msgs sibs := by
    rw [w5]
    simp
  simp only [rsp_make_error, hsuf, ne_eq, hfid0, not_false_eq_true, if_true, ite_true]
  rcases hp : ((frag_error_walk (st.msgs i).frag_id (sibs ++ rest) st 0).1.msgs i).peer
    with _ | p <;> simp only [hp]
  · exact ⟨w2, w1, w4, by simp [setMsg, hW2], by simp [setMsg], by simp [setMsg],
      by rw [w2]⟩
  · exact ⟨w2, w1, fun j hj => List.mem_append_left _ (w4 j hj),
      by simp [setMsg, hW2], by simp [setMsg], by simp [setMsg], by simp [w2]⟩

/-- C2 witness: the three-fragment scenario. Fragment 2 errored (err 110)
while fragments 1 and 3 succeeded; rsp_make_error collects and releases the
siblings 2 and 3 and synthesizes the single error response 20 carrying err
110, and the full send loop then delivers exactly that one response to the
client, dequeues all three fragments, and releases them. -/
theorem c2_make_error_frag_witness :
    (c2_init.cconn.omsg_q = [] ++ 1 :: ([2, 3] ++ []) ∧
     c2_init.cconn.omsg_q.Nodup ∧
     (c2_init.msgs 1).frag_id ≠ 0 ∧
     (∀ j ∈ [2, 3], (c2_init.msgs j).frag_id = (c2_init.msgs 1).frag_id)) ∧
    ((rsp_make_error c2_init 1).1 = c2_init.next_id ∧
     (rsp_make_error c2_init 1).2.cconn.omsg_q = [] ++ 1 :: [] ∧
     (∀ j ∈ [2, 3], j ∈ (rsp_make_error c2_init 1).2.freed) ∧
     ((rsp_make_error c2_init 1).2.msgs (rsp_make_error c2_init 1).1).err =
       rep_err c2_init.msgs [2, 3] ∧
     ((rsp_make_error c2_init 1).2.msgs (rsp_make_error c2_init 1).1).error_synth = true ∧
     ((rsp_make_error c2_init 1).2.msgs (rsp_make_error c2_init 1).1).request = false ∧
     (rsp_make_error c2_init 1).2.next_id = c2_init.next_id + 1) ∧
    (rep_err c2_init.msgs [2, 3] = 110 ∧
     (drain 2 c2_init).1 = [20] ∧
     (drain 2 c2_init).2.cconn.omsg_q = [] ∧
     ((drain 2 c2_init).2.msgs 20).error_synth = true ∧
     ((drain 2 c2_init).2.msgs 20).err = 110 ∧
     1 ∈ (drain 2 c2_init).2.freed ∧ 2 ∈ (drain 2 c2_init).2.freed ∧
     3 ∈ (drain 2 c2_init).2.freed ∧
     (drain 2 c2_init).2.sp.forward_error = 1) :=
  ⟨⟨rfl, by decide, by decide, by decide⟩,
   c2_make_error_frag c2_init [] [2, 3] [] 1 rfl (by decide) (by decide) (by decide)
     (fun r hr => Option.noConfusion hr),
   by decide⟩

/-- Reading a store after a setMsg: the written value at the written index,
the old store elsewhere. -/
theorem setMsg_peer_at (m : Nat → Msg) (k j : Nat) (v : Msg) :
    ((setMsg m k v) j).peer = (if j = k then v.peer else (m j).peer) := by
  by_cases h : j = k <;> simp [setMsg, h]

/-- A store update that leaves every peer field unchanged preserves the
symmetry of the peer links. -/
theorem peerSym_congr (m1 m2 : Nat → Msg)
    (h : ∀ j, (m2 j).peer = (m1 j).peer) (hs : PeerSym m1) : PeerSym m2 := by
  intro x y
  rw [h x, h y]
  exact hs x y

/-- The peer fields after the two-sided link of rsp_forward (a gets peer b,
then b gets peer a). -/
theorem link_peers (m : Nat → Msg) (a b : Nat) (j : Nat) :
    ((setMsg (setMsg m a { m a with peer := some b }) b
      { (setMsg m a { m a with peer := some b }) b with peer := some a }) j).peer =
    (if j = b then some a else if j = a then some b else (m j).peer) := by
  by_cases h1 : j = b
  · subst h1
    simp [setMsg]
  · by_cases h2 : j = a
    · subst h2
      simp [setMsg, h1]
    · simp [setMsg, h1, h2]

/-- The peer fields after the two-sided unlink of req_put and
rsp_make_error (both c and p lose their peer). -/
theorem unlink_peers (m : Nat → Msg) (c p : Nat) (j : Nat) :
    ((setMsg (setMsg m c { m c with peer := none }) p
      { (setMsg m c { m c with peer := none }) p with peer := none }) j).peer =
    (if j = p then none else if j = c then none else (m j).peer) := by
  by_cases h1 : j = p
  · subst h1
    simp [setMsg]
  · by_cases h2 : j = c
    · subst h2
      simp [setMsg, h1]
    · simp [setMsg, h1, h2]

/-- Linking two unlinked messages on both sides in one step preserves peer
symmetry. -/
theorem peerSym_link (m : Nat → Msg) (a b : Nat)
    (hs : PeerSym m) (ha : (m a).peer = none) (hb : (m b).peer = none)
    (m2 : Nat → Msg)
    (hm2 : ∀ j, (m2 j).peer =
      (if j = b then some a else if j = a then some b else (m j).peer)) :
    PeerSym m2 := by
  have hna : ∀ z, (m z).peer ≠ some a := by
    intro z hz
    have h2 := (hs z a).mp hz
    rw [ha] at h2
    exact Option.noConfusion h2
  have hnb : ∀ z, (m z).peer ≠ some b := by
    intro z hz
    have h2 := (hs z b).mp hz
    rw [hb] at h2
    exact Option.noConfusion h2
  have hdir : ∀ u v, (m2 u).peer = some v → (m2 v).peer = some u := by
    intro u v h
    rw [hm2] at h
    rw [hm2]
    by_cases hu1 : u = b
    · rw [if_pos hu1] at h
      have hv : v = a := by
        injection h with hh
        exact hh.symm
      subst hv
      by_cases hab : v = b
      · rw [if_pos hab, hab, hu1]
      · rw [if_neg hab, if_pos rfl, hu1]
    · rw [if_neg hu1] at h
      by_cases hu2 : u = a
      · rw [if_pos hu2] at h
        have hv : v = b := by
          injection h with hh
          exact hh.symm
        subst hv
        rw [if_pos rfl, hu2]
      · rw [if_neg hu2] at h
        have hvb : v ≠ b := fun he => hnb u (he ▸ h)
        have hva : v ≠ a := fun he => hna u (he ▸ h)
        rw [if_neg hvb, if_neg hva]
        exact (hs u v).mp h
  exact fun x y => ⟨hdir x y, hdir y x⟩

/-- Tearing down a link on both sides in one step preserves peer
symmetry. -/
theorem peerSym_unlink (m : Nat → Msg) (c p : Nat) (hs : PeerSym m)
    (hcp : (m c).peer = some p)
    (m2 : Nat → Msg)
    (hm2 : ∀ j, (m2 j).peer =
      (if j = p then none else if j = c then none else (m j).peer)) :
    PeerSym m2 := by
  have hpc : (m p).peer = some c := (hs c p).mp hcp
  have hnc : ∀ z, (m z).peer = some c → z = p := by
    intro z hz
    have h2 := (hs z c).mp hz
    rw [hcp] at h2
    injection h2 with hh
    exact hh.symm
  have hnp : ∀ z, (m z).peer = some p → z = c := by
    intro z hz
    have h2 := (hs z p).mp hz
    rw [hpc] at h2
    injection h2 with hh
    exact hh.symm
  have hdir : ∀ u v, (m2 u).peer = some v → (m2 v).peer = some u := by
    intro u v h
    rw [hm2] at h
    rw [hm2]
    by_cases hu1 : u = p
    · rw [if_pos hu1] at h
      exact Option.noConfusion h
    · rw [if_neg hu1] at h
      by_cases hu2 : u = c
      · rw [if_pos hu2] at h
        exact Option.noConfusion h
      · rw [if_neg hu2] at h
        have hvp : v ≠ p := fun he => hu2 (hnp u (he ▸ h))
        have hvc : v ≠ c := fun he => hu1 (hnc u (he ▸ h))
        rw [if_neg hvp, if_neg hvc]
        exact (hs u v).mp h
  exact fun x y => ⟨hdir x y, hdir y x⟩

/-- Writing a fresh unlinked message over an unlinked slot preserves peer
symmetry (the allocation step of msg_get_error). -/
theorem peerSym_set_none (m : Nat → Msg) (k : Nat) (v : Msg) (hs : PeerSym m)
    (hv : v.peer = none) (hk : (m k).peer = none) : PeerSym (setMsg m k v) := by
  have hnk : ∀ z, (m z).peer ≠ some k := by
    intro z hz
    have h2 := (hs z k).mp hz
    rw [hk] at h2
    exact Option.noConfusion h2
  have hdir : ∀ u w, ((setMsg m k v) u).peer = some w →
      ((setMsg m k v) w).peer = some u := by
    intro u w h
    unfold setMsg at h ⊢
    by_cases hu : u = k
    · rw [if_pos hu] at h
      rw [hv] at h
      exact Option.noConfusion h
    · rw [if_neg hu] at h
      have hwk : w ≠ k := fun he => hnk u (he ▸ h)
      rw [if_neg hwk]
      exact (hs u w).mp h
  exact fun x y => ⟨hdir x y, hdir y x⟩

/-- req_put preserves peer symmetry: it either releases an unlinked request
or tears its link down on both sides. -/
theorem req_put_sym (m : Nat → Msg) (c : Nat) (hs : PeerSym m) :
    PeerSym (req_put m c).1 := by
  unfold req_put
  rcases hp : (m c).peer with _ | p
  · exact hs
  · simp only [hp]
    exact peerSym_unlink m c p hs hp _ (unlink_peers m c p)

/-- req_put never creates a peer link: a slot with no peer keeps none. -/
theorem req_put_peer_none (m : Nat → Msg) (c j : Nat)
    (h : (m j).peer = none) : ((req_put m c).1 j).peer = none := by
  unfold req_put
  rcases hp : (m c).peer with _ | p
  · exact h
  · simp only [hp]
    rw [unlink_peers m c p j]
    by_cases h1 : j = p <;> by_cases h2 : j = c <;> simp [h1, h2, h]

/-- The sibling walk of rsp_make_error preserves peer symmetry. -/
theorem frag_error_walk_sym (fid : Nat) (l : List Nat) :
    ∀ (st : SysState) (err : Nat), PeerSym st.msgs →
    PeerSym (frag_error_walk fid l st err).1.msgs := by
  induction l with
  | nil =>
    intro st err hs
    exact hs
  | cons c rest ih =>
    intro st err hs
    unfold frag_error_walk
    by_cases hc : (st.msgs c).frag_id = fid
    · rw [if_pos hc]
      exact ih _ _ (req_put_sym st.msgs c hs)
    · rw [if_neg hc]
      exact hs

/-- The sibling walk never creates a peer link at any slot. -/
theorem frag_error_walk_peer_none (fid : Nat) (l : List Nat) :
    ∀ (st : SysState) (err j : Nat), (st.msgs j).peer = none →
    ((frag_error_walk fid l st err).1.msgs j).peer = none := by
  induction l with
  | nil =>
    intro st err j h
    exact h
  | cons c rest ih =>
    intro st err j h
    unfold frag_error_walk
    by_cases hc : (st.msgs c).frag_id = fid
    · rw [if_pos hc]
      exact ih _ _ j (req_put_peer_none st.msgs c j h)
    · rw [if_neg hc]
      exact h

/-- The sibling walk does not allocate: next_id is unchanged. -/
theorem frag_error_walk_next_id (fid : Nat) (l : List Nat) :
    ∀ (st : SysState) (err : Nat),
    (frag_error_walk fid l st err).1.next_id = st.next_id := by
  induction l with
  | nil =>
    intro st err
    rfl
  | cons c rest ih =>
    intro st err
    unfold frag_error_walk
    by_cases hc : (st.msgs c).frag_id = fid
    · rw [if_pos hc]
      exact ih _ _
    · rw [if_neg hc]

/-- rsp_make_error preserves peer symmetry (every unlink it performs is
two-sided, and the error response it allocates starts unlinked), and both
the fresh error response and the request it was called for end up with no
peer link. -/
theorem rsp_make_error_sym (st : SysState) (i : Nat) (hs : PeerSym st.msgs)
    (hfresh : (st.msgs st.next_id).peer = none) :
    PeerSym (rsp_make_error st i).2.msgs ∧
    ((rsp_make_error st i).2.msgs (rsp_make_error st i).1).peer = none ∧
    ((rsp_make_error st i).2.msgs i).peer = none := by
  simp only [rsp_make_error]
  by_cases hf : (st.msgs i).frag_id = 0
  · simp only [if_neg (not_not_intro hf)]
    rcases hp : (st.msgs i).peer with _ | p <;> simp only [hp]
    · refine ⟨peerSym_set_none _ _ _ hs rfl hfresh, by simp [setMsg], ?_⟩
      simp only [setMsg_peer_at]
      split_ifs <;> simp [hp]
    · have hsym2 := peerSym_unlink st.msgs i p hs hp _ (unlink_peers st.msgs i p)
      have hfr2 : ((setMsg (setMsg st.msgs i { st.msgs i with peer := none }) p
          { (setMsg st.msgs i { st.msgs i with peer := none }) p with peer := none })
            st.next_id).peer = none := by
        simp only [setMsg_peer_at]
        split_ifs <;> simp [hfresh]
      refine ⟨peerSym_set_none _ _ _ hsym2 rfl hfr2, by simp [setMsg], ?_⟩
      simp only [setMsg_peer_at]
      split_ifs <;> simp
  · have hsW := frag_error_walk_sym (st.msgs i).frag_id
      (suffixAfter st.cconn.omsg_q i) st 0 hs
    have hfW0 := frag_error_walk_peer_none (st.msgs i).frag_id
      (suffixAfter st.cconn.omsg_q i) st 0 st.next_id hfresh
    have hnidW := frag_error_walk_next_id (st.msgs i).frag_id
      (suffixAfter st.cconn.omsg_q i) st 0
    set W := frag_error_walk (st.msgs i).frag_id (suffixAfter st.cconn.omsg_q i) st 0
      with hW
    have hfW : (W.1.msgs W.1.next_id).peer = none := by
      rw [hnidW]
      exact hfW0
    simp only [if_pos hf]
    rcases hp : (W.1.msgs i).peer with _ | p <;> simp only [hp]
    · refine ⟨peerSym_set_none _ _ _ hsW rfl hfW, by simp [setMsg], ?_⟩
      simp only [setMsg_peer_at]
      split_ifs <;> simp [hp]
    · have hsym2 := peerSym_unlink W.1.msgs i p hsW hp _ (unlink_peers W.1.msgs i p)
      have hfr2 : ((setMsg (setMsg W.1.msgs i { W.1.msgs i with peer := none }) p
          { (setMsg W.1.msgs i { W.1.msgs i with peer := none }) p with peer := none })
            W.1.next_id).peer = none := by
        simp only [setMsg_peer_at]
        split_ifs <;> simp [hfW]
      refine ⟨peerSym_set_none _ _ _ hsym2 rfl hfr2, by simp [setMsg], ?_⟩
      simp only [setMsg_peer_at]
      split_ifs <;> simp

/-- rsp_forward preserves peer symmetry: the pairing of the dequeued head
request with the arriving response sets both sides in one step, and no
later step of the function (done flag, slow-log timestamp, stats) touches
a peer link. The source asserts the head request and the fresh response
are unlinked on entry, which the two none hypotheses state. -/
theorem rsp_forward_sym (now : Int) (server : Option Server) (sc : ServConn)
    (st : SysState) (i p : Nat) (rest : List Nat) (hq : sc.omsg_q = p :: rest)
    (hpn : (st.msgs p).peer = none) (hin : (st.msgs i).peer = none)
    (hs : PeerSym st.msgs) :
    PeerSym (rsp_forward now server sc st i).2.msgs := by
  have hlink := peerSym_link st.msgs p i hs hpn hin _ (link_peers st.msgs p i)
  simp only [rsp_forward, hq]
  split_ifs <;> (try split) <;> (try split_ifs) <;>
    refine peerSym_congr _ _ (fun j => ?_) hlink <;>
    simp only [setMsg_peer_at] <;> split_ifs <;> simp_all

/-- rsp_send_next preserves peer symmetry: the only peer mutation on its
paths is the two-sided link of a freshly synthesized error response to the
errored request, whose own link rsp_make_error has already torn down. -/
theorem rsp_send_next_sym (st : SysState) (hs : PeerSym st.msgs)
    (hfresh : (st.msgs st.next_id).peer = none) :
    PeerSym (rsp_send_next st).2.msgs := by
  simp only [rsp_send_next]
  split
  · exact hs
  · rename_i p0 hh
    split_ifs with h1
    · exact hs
    · split
      · exact hs
      · rename_i pv hpm
        split_ifs with h2 h3
        · exact hs
        · obtain ⟨hsE, hmidn, hpn2⟩ := rsp_make_error_sym st pv hs hfresh
          exact peerSym_link _ (rsp_make_error st pv).1 pv hsE hmidn hpn2 _
            (link_peers (rsp_make_error st pv).2.msgs (rsp_make_error st pv).1 pv)
        · exact hs

/-- Every message req_put releases has no peer link left in the resulting
store: links are torn down on both sides before either side is freed. -/
theorem req_put_freed_peer_none (m : Nat → Msg) (c j : Nat)
    (hj : j ∈ (req_put m c).2) : ((req_put m c).1 j).peer = none := by
  unfold req_put at hj ⊢
  rcases hp : (m c).peer with _ | p <;> simp only [hp] at hj ⊢
  · simp at hj
    subst hj
    exact hp
  · simp at hj
    rcases hj with hj | hj <;> subst hj <;>
      simp only [setMsg_peer_at] <;> split_ifs <;> simp

/-- The all-none store of the C8 witness is symmetric. -/
theorem c8_state_sym : PeerSym c8_state.msgs := by
  intro a b
  simp [c8_state]

/-- C8: the request-response peer link is symmetric and maintained
atomically: forwarding (rsp_forward), error synthesis at egress
(rsp_send_next), and error aggregation (rsp_make_error) each preserve the
invariant that msg.peer = pmsg holds exactly when pmsg.peer = msg, and a
message released by req_put has had its link torn down on both sides
before the release. -/
theorem c8_peer_symmetry :
    (∀ (now : Int) (server : Option Server) (sc : ServConn) (st : SysState)
       (i p : Nat) (rest : List Nat), sc.omsg_q = p :: rest →
       (st.msgs p).peer = none → (st.msgs i).peer = none → PeerSym st.msgs →
       PeerSym (rsp_forward now server sc st i).2.msgs) ∧
    (∀ (st : SysState) (i : Nat), PeerSym st.msgs →
       (st.msgs st.next_id).peer = none →
       PeerSym (rsp_make_error st i).2.msgs) ∧
    (∀ (st : SysState), PeerSym st.msgs → (st.msgs st.next_id).peer = none →
       PeerSym (rsp_send_next st).2.msgs) ∧
    (∀ (m : Nat → Msg) (c j : Nat), j ∈ (req_put m c).2 →
       ((req_put m c).1 j).peer = none) :=
  ⟨fun now server sc st i p rest hq hpn hin hs =>
     rsp_forward_sym now server sc st i p rest hq hpn hin hs,
   fun st i hs hf => (rsp_make_error_sym st i hs hf).1,
   fun st hs hf => rsp_send_next_sym st hs hf,
   req_put_freed_peer_none⟩

/-- C8 witness: all four parts applied on a concrete symmetric state. -/
theorem c8_peer_symmetry_witness :
    (({ omsg_q := [1] } : ServConn).omsg_q = 1 :: [] ∧
     (c8_state.msgs 1).peer = none ∧
     (c8_state.msgs 2).peer = none ∧
     PeerSym c8_state.msgs ∧
     (c8_state.msgs c8_state.next_id).peer = none ∧
     1 ∈ (req_put c8_state.msgs 1).2) ∧
    (PeerSym (rsp_forward 0 none { omsg_q := [1] } c8_state 2).2.msgs ∧
     PeerSym (rsp_make_error c8_state 2).2.msgs ∧
     PeerSym (rsp_send_next c8_state).2.msgs ∧
     ((req_put c8_state.msgs 1).1 1).peer = none) :=
  ⟨⟨rfl, rfl, rfl, c8_state_sym, rfl, req_put_freed_self c8_state.msgs 1⟩,
   c8_peer_symmetry.1 0 none { omsg_q := [1] } c8_state 2 1 [] rfl rfl rfl c8_state_sym,
   c8_peer_symmetry.2.1 c8_state 2 c8_state_sym rfl,
   c8_peer_symmetry.2.2.1 c8_state c8_state_sym rfl,
   c8_peer_symmetry.2.2.2 c8_state.msgs 1 1 (req_put_freed_self c8_state.msgs 1)⟩

end R3Proxy
